import Mathlib

/-!
Shallow embedding of the transitdb repository (Go + SQL).

The authoritative code lives in `src/store.go` (packages `pg` and
`transitdb`) and `src/query.sql` (the `transitdb` request/offer types).
Times and dates are modelled as `Nat` (Go's zero time is `0`); SQL
`NULL`-able columns are `Option`; money is `Int` (Go `int`); SQL result
sets are Lean lists, with joins written as `bind` over the joined tables
so that duplicate rows are kept exactly as SQL produces them.
-/

namespace Transitdb

/-! ### Generic list helpers (SQL MIN aggregate, ORDER BY) -/

/-- SQL `MIN(x)` over a column: `none` on the empty set. -/
def listMin {α : Type} [LinearOrder α] : List α → Option α
  | [] => none
  | x :: xs => some (xs.foldl min x)

/-- SQL `ORDER BY key ASC` as an insertion sort (ties in an unspecified
but fixed order, as SQL leaves them). -/
def sortByKey {α : Type} (key : α → Int) (l : List α) : List α :=
  List.insertionSort (fun a b => key a ≤ key b) l

/-! ### Data model: the relational schema of `store.go` -/

/-- Row of the `places` table (`store.go` schema). -/
structure Place where
  place_id : Nat
  latitude : Int
  longitude : Int
  name : String
  country : String
  iata_code : Option String
deriving DecidableEq

/-- Row of the `offers` table (`store.go` schema). `end_time` and
`expires_at` are nullable; the other columns are `NOT NULL`. -/
structure OfferRow where
  origin_id : Nat
  dest_id : Nat
  cost : Int
  source : String
  start_time : Nat
  end_time : Option Nat
  created_at : Nat
  expires_at : Option Nat
deriving DecidableEq

/-- The backing store: the two tables of the schema. -/
structure DB where
  places : List Place
  offers : List OfferRow
deriving DecidableEq

/-! ### `query.sql` Go types: Offer, Validate, ListQuotesRequest, Quote -/

/-- Go struct `transitdb.Offer` (`query.sql`). Dates and timestamps are
`Nat`, with `0` playing Go's zero `time.Time` (`IsZero`). -/
structure Offer where
  ID : Nat
  OriginAirport : String
  DestinationAirport : String
  Cost : Int
  Source : String
  AvailableFrom : Nat
  AvailableTo : Nat
  OfferedAt : Nat
  ExpiresAt : Nat
deriving DecidableEq

/-- Go method `Offer.Validate` (`query.sql` lines 173-195). -/
def Offer.Validate (o : Offer) : Except String Unit :=
  if o.Cost ≤ 0 then .error "missing cost"
  else if o.Source = "" then .error "missing source"
  else if o.OfferedAt = 0 then .error "missing offeredAt"
  else if o.AvailableFrom = 0 then .error "missing availableFrom"
  else .ok ()

/-- Go struct `transitdb.Quote` (`query.sql`). -/
structure Quote where
  Cost : Int
  Origin : String
  OriginCountry : String
  Dest : String
  DestCountry : String
  Date : Nat
deriving DecidableEq

/-- Go struct `transitdb.ListQuotesRequest` (`query.sql`). `Limit` and
`Offset` are Go `int`, hence `Int` here. -/
structure ListQuotesRequest where
  StartDate : Nat
  EndDate : Nat
  Origins : List String
  Destinations : List String
  Limit : Int
  Offset : Int
deriving DecidableEq

/-! ### `ListQuotesRequest.FromHTTP`: date and integer parsing -/

/-- Digit value of an ASCII digit character. -/
def digitVal (c : Char) : Nat := c.toNat - 48

/-- Go `time.Parse("2006-01-02", s)` (Go 1.7 semantics): exactly ten
characters `YYYY-MM-DD`, month in `1..12`, day in `1..31`. The parsed
date is encoded as `y*10000 + m*100 + d`, which is order-compatible with
calendar order. -/
def parseDate (s : String) : Option Nat :=
  match s.toList with
  | [y1, y2, y3, y4, c1, m1, m2, c2, d1, d2] =>
    if y1.isDigit && y2.isDigit && y3.isDigit && y4.isDigit &&
       c1 == '-' && c2 == '-' &&
       m1.isDigit && m2.isDigit && d1.isDigit && d2.isDigit then
      let y := ((digitVal y1 * 10 + digitVal y2) * 10 + digitVal y3) * 10 + digitVal y4
      let m := digitVal m1 * 10 + digitVal m2
      let d := digitVal d1 * 10 + digitVal d2
      if 1 ≤ m && m ≤ 12 && 1 ≤ d && d ≤ 31 then
        some (y * 10000 + m * 100 + d)
      else none
    else none
  | _ => none

/-- Decimal digits to a number, failing on the empty string or a
non-digit. -/
def parseDigits (l : List Char) : Option Nat :=
  if l = [] then none
  else if l.all Char.isDigit then
    some (l.foldl (fun a c => a * 10 + digitVal c) 0)
  else none

/-- Go `strconv.Atoi` with its error ignored, as `FromHTTP` does
(`limit, _ := strconv.Atoi(...)`): an unparsable string yields `0`. -/
def atoiOrZero (s : String) : Int :=
  match s.toList with
  | '+' :: rest => (parseDigits rest).elim 0 (fun n => (n : Int))
  | '-' :: rest => (parseDigits rest).elim 0 (fun n => -(n : Int))
  | l => (parseDigits l).elim 0 (fun n => (n : Int))

/-- The HTTP form data `FromHTTP` reads: `FormValue` of each scalar key
(the empty string when absent) and the repeated `origin`/`dest` values. -/
structure HTTPForm where
  startParam : String
  endParam : String
  originParams : List String
  destParams : List String
  limitParam : String
  offsetParam : String
deriving DecidableEq

/-- Go method `ListQuotesRequest.FromHTTP` (`query.sql` lines 74-101). -/
def FromHTTP (f : HTTPForm) : Except String ListQuotesRequest :=
  match parseDate f.startParam with
  | none => .error "invalid 'start'"
  | some sd =>
    match parseDate f.endParam with
    | none => .error "invalid 'end'"
    | some ed =>
      let limit0 := atoiOrZero f.limitParam
      let limit := if limit0 = 0 then 100 else limit0
      let offset := atoiOrZero f.offsetParam
      .ok ⟨sd, ed, f.originParams, f.destParams, limit, offset⟩

/-! ### pg store: airport lookup and cache (`store.go` lines 90-113) -/

/-- The SQL lookup `SELECT place_id FROM places WHERE iata_code = $1`
followed by `row.Scan`: the first matching row, or a no-rows error. -/
def placeIDByIATA (db : DB) (iata : String) : Option Nat :=
  (db.places.find? (fun p => p.iata_code == some iata)).map (fun p => p.place_id)

/-- The process-wide `airportIDCache` map. -/
def Cache := List (String × Nat)

instance : DecidableEq Cache := by unfold Cache; infer_instance

/-- Go map read `airportIDCache[iata]`. -/
def cacheGet (c : Cache) (k : String) : Option Nat :=
  (List.find? (fun p => p.1 == k) c).map (fun p => p.2)

/-- Go map write `airportIDCache[iata] = id`. -/
def cacheInsert (c : Cache) (k : String) (v : Nat) : Cache :=
  (k, v) :: List.filter (fun p => p.1 != k) c

instance {α β : Type} [DecidableEq α] [DecidableEq β] :
    DecidableEq (Except α β)
  | .error a, .error b =>
    if h : a = b then .isTrue (by rw [h]) else .isFalse (by simp [h])
  | .error _, .ok _ => .isFalse (by simp)
  | .ok _, .error _ => .isFalse (by simp)
  | .ok a, .ok b =>
    if h : a = b then .isTrue (by rw [h]) else .isFalse (by simp [h])

/-- Outcome of one `AirportIDByIATA` call: the returned value, the cache
afterwards, and whether the backing store was queried. -/
structure LookupOutcome where
  result : Except String Nat
  cache : Cache
  queriedDB : Bool
deriving DecidableEq

/-- Go method `Store.AirportIDByIATA` (`store.go` lines 95-113): answer
from the cache when present; otherwise query the store, returning the
scan error on a miss (cache untouched) and caching on success. -/
def AirportIDByIATA (db : DB) (c : Cache) (iata : String) : LookupOutcome :=
  match cacheGet c iata with
  | some id => ⟨.ok id, c, false⟩
  | none =>
    match placeIDByIATA db iata with
    | none => ⟨.error "sql: no rows in result set", c, true⟩
    | some id => ⟨.ok id, cacheInsert c iata id, true⟩

/-! ### pg store: `SaveOffer` (`store.go` lines 115-160) -/

/-- The typed errors `SaveOffer` can produce: the two mapped
`not_null_violation` cases and an opaque storage error. -/
inductive SaveError where
  | unknownOrigin (code : String)
  | unknownDest (code : String)
  | storage (msg : String)
deriving DecidableEq

/-- The caller-visible error text (`fmt.Errorf("unknown origin airport
%q", ...)` and the raw error otherwise). -/
def SaveError.message : SaveError → String
  | .unknownOrigin code => "unknown origin airport \"" ++ code ++ "\""
  | .unknownDest code => "unknown destination airport \"" ++ code ++ "\""
  | .storage msg => msg

/-- Go method `Store.SaveOffer` (`store.go` lines 115-160): the INSERT
resolves both airport codes via subselects; a `NULL` `origin_id` or
`dest_id` raises a `not_null_violation` on that column (columns in table
order, origin first) which the Go code maps to a field-specific error; a
zero `AvailableFrom` likewise nulls the `NOT NULL` `start_time`.
Nullable timestamps store `NULL` for Go zero times (`pq.NullTime`).
On success the row is appended to `offers`. -/
def SaveOffer (db : DB) (o : Offer) : Except SaveError DB :=
  match placeIDByIATA db o.OriginAirport with
  | none => .error (.unknownOrigin o.OriginAirport)
  | some oid =>
    match placeIDByIATA db o.DestinationAirport with
    | none => .error (.unknownDest o.DestinationAirport)
    | some did =>
      if o.AvailableFrom = 0 then
        .error (.storage "pq: null value in column start_time violates not-null constraint")
      else
        .ok ⟨db.places,
          db.offers ++ [⟨oid, did, o.Cost, o.Source, o.AvailableFrom,
            if o.AvailableTo = 0 then none else some o.AvailableTo,
            o.OfferedAt,
            if o.ExpiresAt = 0 then none else some o.ExpiresAt⟩]⟩

/-! ### pg store: `cheapestPerRouteSQL` (`store.go` lines 194-219) -/

/-- `WHERE start_time BETWEEN $1 AND $2` over the offers table. -/
def offersInWindow (l : List OfferRow) (s e : Nat) : List OfferRow :=
  l.filter (fun o => decide (s ≤ o.start_time) && decide (o.start_time ≤ e))

/-- The distinct `(origin_id, dest_id)` groups of `GROUP BY`. -/
def routesOf (l : List OfferRow) : List (Nat × Nat) :=
  (l.map (fun o => (o.origin_id, o.dest_id))).dedup

/-- The rows of one `(origin_id, dest_id)` group. -/
def groupOffers (l : List OfferRow) (r : Nat × Nat) : List OfferRow :=
  l.filter (fun o => o.origin_id == r.1 && o.dest_id == r.2)

/-- Row of the `cheapest` CTE. -/
structure CheapestRow where
  origin_id : Nat
  dest_id : Nat
  start_time : Nat
  cost : Int
deriving DecidableEq

/-- The `cheapest` CTE of `cheapestPerRouteSQL`: per group, the minimum
`start_time` and the minimum `cost` — each a `MIN` over the whole group,
taken independently of one another. -/
def cheapestCTE (db : DB) (s e : Nat) : List CheapestRow :=
  let inWin := offersInWindow db.offers s e
  (routesOf inWin).filterMap (fun r =>
    match listMin ((groupOffers inWin r).map (fun o => o.start_time)),
          listMin ((groupOffers inWin r).map (fun o => o.cost)) with
    | some st, some c => some ⟨r.1, r.2, st, c⟩
    | _, _ => none)

/-- A `cheapest` row joined to its origin and destination places. -/
structure JoinedCheapest where
  originPlace : Place
  destPlace : Place
  cost : Int
  start_time : Nat
deriving DecidableEq

/-- The final SELECT of `cheapestPerRouteSQL` before scanning: join the
CTE to `places` twice and `ORDER BY cost ASC`. -/
def cheapestPerRouteRows (db : DB) (s e : Nat) : List JoinedCheapest :=
  sortByKey (fun r => r.cost)
    ((cheapestCTE db s e).flatMap (fun ch =>
      (db.places.filter (fun p => p.place_id == ch.origin_id)).flatMap (fun po =>
        (db.places.filter (fun p => p.place_id == ch.dest_id)).map (fun pd =>
          ⟨po, pd, ch.cost, ch.start_time⟩))))

/-- Go method `Store.CheapestPerRoute` (`store.go` lines 162-192): scan
each row into a `Quote` (`iata_code` is nullable, so scanning a place
without a code fails and aborts the result). -/
def CheapestPerRoute (db : DB) (s e : Nat) : Except String (List Quote) :=
  (cheapestPerRouteRows db s e).mapM (fun r =>
    match r.originPlace.iata_code, r.destPlace.iata_code with
    | some oc, some dc =>
      .ok ⟨r.cost, oc, r.originPlace.country, dc, r.destPlace.country, r.start_time⟩
    | _, _ => .error "sql: Scan error: converting NULL to string is unsupported")

/-! ### pg store: `listQuotesSQL` (`store.go` lines 221-318) -/

/-- `strings.Join(q.Origins, ",")`, the `$3` parameter. -/
def originsParam (req : ListQuotesRequest) : String :=
  String.intercalate "," req.Origins

/-- `strings.Join(q.Destinations, ",")`, the `$4` parameter. -/
def destsParam (req : ListQuotesRequest) : String :=
  String.intercalate "," req.Destinations

/-- The filter `$p = '' OR place.iata_code = ANY(string_to_array($p, ','))`:
an empty joined parameter disables the filter; a `NULL` code never
matches the `ANY`. -/
def iataMatches (param : String) (code : Option String) : Bool :=
  param == "" ||
    (match code with
     | none => false
     | some c => (param.splitOn ",").contains c)

/-- `expires_at > NOW()`: `NULL` compares as unknown, excluding the row. -/
def expiresInFuture (e : Option Nat) (now : Nat) : Bool :=
  match e with
  | none => false
  | some t => decide (now < t)

/-- The `matching_offers` CTE with its parameters spelled out: offers
joined to both places, filtered by window, airport allow-lists and
strictly-future expiration; `SELECT offers.*` keeps only offer columns
(duplicated per matching place pair, as the join does). -/
def matchingOffersP (db : DB) (sd ed : Nat) (op dp : String) (now : Nat) :
    List OfferRow :=
  db.offers.flatMap (fun o =>
    (db.places.filter (fun p => p.place_id == o.origin_id)).flatMap (fun po =>
      (db.places.filter (fun p => p.place_id == o.dest_id)).filterMap (fun pd =>
        if decide (sd ≤ o.start_time) && decide (o.start_time ≤ ed) &&
           iataMatches op po.iata_code &&
           iataMatches dp pd.iata_code &&
           expiresInFuture o.expires_at now
        then some o else none)))

/-- The `matching_offers` CTE of `listQuotesSQL`, with the parameters
taken from the request as `Store.ListQuotes` passes them. -/
def matchingOffers (db : DB) (req : ListQuotesRequest) (now : Nat) :
    List OfferRow :=
  matchingOffersP db req.StartDate req.EndDate
    (originsParam req) (destsParam req) now

/-- Row of the `min_offers` CTE. -/
structure MinRow where
  origin_id : Nat
  dest_id : Nat
  cost : Int
deriving DecidableEq

/-- The `min_offers` CTE: minimum cost per `(origin_id, dest_id)` group
of `matching_offers`. -/
def minOffers (mo : List OfferRow) : List MinRow :=
  (routesOf mo).filterMap (fun r =>
    (listMin ((groupOffers mo r).map (fun o => o.cost))).map
      (fun c => ⟨r.1, r.2, c⟩))

/-- Row of the `next_min_offer` CTE. -/
structure NextRow where
  origin_id : Nat
  dest_id : Nat
  cost : Int
  start_time : Nat
deriving DecidableEq

/-- The `next_min_offer` CTE: join `min_offers` back to
`matching_offers` on `(origin_id, dest_id, cost)` and take the minimum
`start_time` per group. -/
def nextMinOffer (mo : List OfferRow) : List NextRow :=
  (minOffers mo).filterMap (fun m =>
    (listMin ((mo.filter (fun o =>
        o.origin_id == m.origin_id && o.dest_id == m.dest_id &&
        o.cost == m.cost)).map (fun o => o.start_time))).map
      (fun st => ⟨m.origin_id, m.dest_id, m.cost, st⟩))

/-- The final SELECT of `listQuotesSQL` before ordering: join
`next_min_offer` back to the full `offers` table on
`(origin_id, dest_id, cost, start_time)`, then to `places` twice, and
emit `(cost, origin name/country, dest name/country, start_time)`. -/
def listQuoteRows (db : DB) (req : ListQuotesRequest) (now : Nat) :
    List Quote :=
  (nextMinOffer (matchingOffers db req now)).flatMap (fun n =>
    (db.offers.filter (fun o =>
        o.origin_id == n.origin_id && o.dest_id == n.dest_id &&
        o.cost == n.cost && o.start_time == n.start_time)).flatMap (fun o =>
      (db.places.filter (fun p => p.place_id == o.dest_id)).flatMap (fun pd =>
        (db.places.filter (fun p => p.place_id == o.origin_id)).map (fun po =>
          ⟨n.cost, po.name, po.country, pd.name, pd.country, n.start_time⟩))))

/-- The full cost-ascending result of `listQuotesSQL` before
`LIMIT`/`OFFSET`. -/
def listQuotesFull (db : DB) (req : ListQuotesRequest) (now : Nat) :
    List Quote :=
  sortByKey (fun q => q.Cost) (listQuoteRows db req now)

/-- Go method `Store.ListQuotes` (`store.go` lines 221-256) running
`listQuotesSQL`: order by cost, then `OFFSET $6` and `LIMIT $5`.
Postgres rejects a negative `LIMIT` or `OFFSET`. -/
def ListQuotes (db : DB) (req : ListQuotesRequest) (now : Nat) :
    Except String (List Quote) :=
  if req.Limit < 0 then .error "pq: LIMIT must not be negative"
  else if req.Offset < 0 then .error "pq: OFFSET must not be negative"
  else .ok (((listQuotesFull db req now).drop req.Offset.toNat).take req.Limit.toNat)

/-! ### HTTP handlers (`store.go` lines 332-424) -/

/-- An HTTP response: status code and body. `http.Error` appends a
newline to its message. -/
structure HTTPResponse where
  status : Nat
  body : String
deriving DecidableEq

/-- Outcome of `json.Unmarshal` on one line of the `addOffers` body:
either a decode failure or the decoded `Offer`. -/
inductive RawLine where
  | invalid
  | valid (o : Offer)
deriving DecidableEq

/-- The scanner loop of `Handler.HandleAddOffers` (`store.go` lines
349-382), carrying the 1-based line counter and the `saved` count:
bad JSON and validation failures answer 400 with the line number and
reason; a failed save logs the error and answers a bare 500; reaching
the end reports the number of saved records. The store state is
threaded through and is kept as-is on abort (no rollback). -/
def handleAddOffersLoop (db : DB) (lines : List RawLine)
    (lineNo saved : Nat) : HTTPResponse × DB :=
  match lines with
  | [] => (⟨200, "saved " ++ toString saved ++ " records\n"⟩, db)
  | l :: rest =>
    match l with
    | .invalid => (⟨400, "line " ++ toString lineNo ++ ": bad json\n"⟩, db)
    | .valid o =>
      match o.Validate with
      | .error msg => (⟨400, "line " ++ toString lineNo ++ ": " ++ msg ++ "\n"⟩, db)
      | .ok _ =>
        match SaveOffer db o with
        | .error _ => (⟨500, "Internal Server Error\n"⟩, db)
        | .ok db2 => handleAddOffersLoop db2 rest (lineNo + 1) (saved + 1)

/-- Go method `Handler.HandleAddOffers` (`store.go` lines 349-382). -/
def HandleAddOffers (db : DB) (lines : List RawLine) : HTTPResponse × DB :=
  handleAddOffersLoop db lines 1 0

/-- Go method `Handler.HandleCheapestPerRoute` (`store.go` lines
384-398), as a function of the store call's outcome: on error it calls
`http.Error(w, err.Error(), 500)`; on success it prints one
`origin,dest,cost` line per quote. -/
def HandleCheapestPerRoute (storeResult : Except String (List Quote)) :
    HTTPResponse :=
  match storeResult with
  | .error e => ⟨500, e ++ "\n"⟩
  | .ok qs =>
    ⟨200, String.join (qs.map (fun q =>
      q.Origin ++ "," ++ q.Dest ++ "," ++ toString q.Cost ++ "\n"))⟩

/-- A rendering of `json.MarshalIndent` for the quote list; its exact
shape is irrelevant to the claims (only the error path matters). -/
def quotesJSON (qs : List Quote) : String :=
  "[" ++ String.intercalate "," (qs.map (fun q =>
    "\x7b\"cost\":" ++ toString q.Cost ++
    ",\"origin\":\"" ++ q.Origin ++ "\"" ++
    ",\"originCountry\":\"" ++ q.OriginCountry ++ "\"" ++
    ",\"dest\":\"" ++ q.Dest ++ "\"" ++
    ",\"destCountry\":\"" ++ q.DestCountry ++ "\"" ++
    ",\"date\":" ++ toString q.Date ++ "\x7d")) ++ "]"

/-- Go method `Handler.HandleListQuotes` (`store.go` lines 400-424), as
a function of the parsed form and the store call's outcome: a parse
failure answers 400 with the parse error; a store error answers
`http.Error(w, err.Error(), 500)`; success marshals the quotes. -/
def HandleListQuotes (f : HTTPForm)
    (storeResult : Except String (List Quote)) : HTTPResponse :=
  match FromHTTP f with
  | .error e => ⟨400, e ++ "\n"⟩
  | .ok _ =>
    match storeResult with
    | .error e => ⟨500, e ++ "\n"⟩
    | .ok qs => ⟨200, quotesJSON qs⟩

/-! ### Batch save state and concrete example stores -/

/-- Saving a batch of offers one at a time, stopping at the first
failure (the state `HandleAddOffers` threads through its loop). -/
def saveAll (db : DB) : List Offer → Except SaveError DB
  | [] => .ok db
  | o :: rest =>
    match SaveOffer db o with
    | .error e => .error e
    | .ok db2 => saveAll db2 rest

/-- A two-offer store used by the concrete theorems: one route LGB→JFK
with a cheap late offer (cost 100, start 20) and an expensive early one
(cost 200, start 10), both unexpired until time 1000. -/
def dbTwoOffers : DB :=
  ⟨[⟨1, 0, 0, "Long Beach", "US", some "LGB"⟩,
    ⟨2, 0, 0, "New York", "US", some "JFK"⟩],
   [⟨1, 2, 100, "s", 20, none, 1, some 1000⟩,
    ⟨1, 2, 200, "s", 10, none, 1, some 1000⟩]⟩

/-- A store whose only offer has expired at time 5. -/
def dbExpired : DB :=
  ⟨[⟨1, 0, 0, "Long Beach", "US", some "LGB"⟩,
    ⟨2, 0, 0, "New York", "US", some "JFK"⟩],
   [⟨1, 2, 100, "s", 20, none, 1, some 5⟩]⟩

/-! ### General lemmas: MIN aggregate and ORDER BY -/

theorem foldl_min_spec {α : Type} [LinearOrder α] (xs : List α) (x : α) :
    (xs.foldl min x = x ∨ xs.foldl min x ∈ xs) ∧
    xs.foldl min x ≤ x ∧ ∀ y ∈ xs, xs.foldl min x ≤ y := by
  induction xs generalizing x with
  | nil => simp
  | cons z zs ih =>
    have h := ih (min x z)
    refine ⟨?_, ?_, ?_⟩
    · rcases h.1 with h1 | h1
      · rcases le_total x z with hxz | hxz
        · left; rw [List.foldl_cons, h1, min_eq_left hxz]
        · right; rw [List.foldl_cons, h1, min_eq_right hxz]; exact List.mem_cons_self _ _
      · right; exact List.mem_cons_of_mem _ h1
    · exact le_trans h.2.1 (min_le_left _ _)
    · intro y hy
      rcases List.mem_cons.mp hy with rfl | hy
      · exact le_trans h.2.1 (min_le_right _ _)
      · exact h.2.2 y hy

theorem listMin_mem {α : Type} [LinearOrder α] {l : List α} {m : α}
    (h : listMin l = some m) : m ∈ l := by
  cases l with
  | nil => simp [listMin] at h
  | cons x xs =>
    simp only [listMin, Option.some.injEq] at h
    rcases (foldl_min_spec xs x).1 with h1 | h1
    · rw [← h, h1]; exact List.mem_cons_self _ _
    · rw [← h]; exact List.mem_cons_of_mem _ h1

theorem listMin_le {α : Type} [LinearOrder α] {l : List α} {m : α}
    (h : listMin l = some m) : ∀ y ∈ l, m ≤ y := by
  cases l with
  | nil => simp [listMin] at h
  | cons x xs =>
    simp only [listMin, Option.some.injEq] at h
    intro y hy
    rcases List.mem_cons.mp hy with rfl | hy
    · rw [← h]; exact (foldl_min_spec xs y).2.1
    · rw [← h]; exact (foldl_min_spec xs x).2.2 y hy

theorem listMin_isSome {α : Type} [LinearOrder α] {l : List α} (h : l ≠ []) :
    ∃ m, listMin l = some m := by
  cases l with
  | nil => exact absurd rfl h
  | cons x xs => exact ⟨_, rfl⟩

theorem sortByKey_perm {α : Type} (key : α → Int) (l : List α) :
    (sortByKey key l).Perm l :=
  List.perm_insertionSort _ l

theorem sortByKey_sorted {α : Type} (key : α → Int) (l : List α) :
    (sortByKey key l).Sorted (fun a b => key a ≤ key b) := by
  haveI : IsTotal α (fun a b => key a ≤ key b) :=
    ⟨fun a b => le_total (key a) (key b)⟩
  haveI : IsTrans α (fun a b => key a ≤ key b) :=
    ⟨fun _ _ _ h1 h2 => le_trans h1 h2⟩
  exact List.sorted_insertionSort _ l

/-! ### Membership lemmas for the aggregation CTEs -/

theorem mem_routesOf {l : List OfferRow} {o : OfferRow} (h : o ∈ l) :
    (o.origin_id, o.dest_id) ∈ routesOf l := by
  unfold routesOf
  rw [List.mem_dedup, List.mem_map]
  exact ⟨o, h, rfl⟩

theorem mem_groupOffers {l : List OfferRow} {r : Nat × Nat} {o : OfferRow} :
    o ∈ groupOffers l r ↔ o ∈ l ∧ o.origin_id = r.1 ∧ o.dest_id = r.2 := by
  unfold groupOffers
  rw [List.mem_filter, Bool.and_eq_true, beq_iff_eq, beq_iff_eq]

theorem groupOffers_self {l : List OfferRow} {o : OfferRow} (h : o ∈ l) :
    o ∈ groupOffers l (o.origin_id, o.dest_id) :=
  mem_groupOffers.mpr ⟨h, rfl, rfl⟩

theorem mem_minOffers {mo : List OfferRow} {m : MinRow} (h : m ∈ minOffers mo) :
    listMin ((groupOffers mo (m.origin_id, m.dest_id)).map
      (fun o => o.cost)) = some m.cost := by
  unfold minOffers at h
  rw [List.mem_filterMap] at h
  obtain ⟨r, _, heq⟩ := h
  rw [Option.map_eq_some'] at heq
  obtain ⟨c, hc, rfl⟩ := heq
  exact hc

theorem minOffers_complete {mo : List OfferRow} {o : OfferRow} (h : o ∈ mo) :
    ∃ m ∈ minOffers mo, m.origin_id = o.origin_id ∧ m.dest_id = o.dest_id := by
  have hr := mem_routesOf h
  have hne : (groupOffers mo (o.origin_id, o.dest_id)).map
      (fun x => x.cost) ≠ [] := by
    simp only [ne_eq, List.map_eq_nil_iff]
    intro hnil
    exact (List.eq_nil_iff_forall_not_mem.mp hnil) o (groupOffers_self h)
  obtain ⟨c, hc⟩ := listMin_isSome hne
  refine ⟨⟨o.origin_id, o.dest_id, c⟩, ?_, rfl, rfl⟩
  unfold minOffers
  rw [List.mem_filterMap]
  exact ⟨(o.origin_id, o.dest_id), hr, by rw [hc]; rfl⟩

theorem mem_nextMinOffer {mo : List OfferRow} {n : NextRow}
    (h : n ∈ nextMinOffer mo) :
    listMin ((groupOffers mo (n.origin_id, n.dest_id)).map
      (fun o => o.cost)) = some n.cost ∧
    listMin ((mo.filter (fun o =>
        o.origin_id == n.origin_id && o.dest_id == n.dest_id &&
        o.cost == n.cost)).map (fun o => o.start_time)) = some n.start_time := by
  unfold nextMinOffer at h
  rw [List.mem_filterMap] at h
  obtain ⟨m, hm, heq⟩ := h
  rw [Option.map_eq_some'] at heq
  obtain ⟨st, hst, rfl⟩ := heq
  exact ⟨mem_minOffers hm, hst⟩

theorem mem_filter_route_cost {mo : List OfferRow} {n : NextRow} {o : OfferRow} :
    o ∈ mo.filter (fun o =>
        o.origin_id == n.origin_id && o.dest_id == n.dest_id &&
        o.cost == n.cost) ↔
      o ∈ mo ∧ o.origin_id = n.origin_id ∧ o.dest_id = n.dest_id ∧
        o.cost = n.cost := by
  rw [List.mem_filter, Bool.and_eq_true, Bool.and_eq_true,
    beq_iff_eq, beq_iff_eq, beq_iff_eq]
  tauto

theorem mem_listQuoteRows {db : DB} {req : ListQuotesRequest} {now : Nat}
    {q : Quote} (h : q ∈ listQuoteRows db req now) :
    ∃ n ∈ nextMinOffer (matchingOffers db req now),
      q.Cost = n.cost ∧ q.Date = n.start_time := by
  unfold listQuoteRows at h
  rw [List.mem_flatMap] at h
  obtain ⟨n, hn, h⟩ := h
  rw [List.mem_flatMap] at h
  obtain ⟨o, _, h⟩ := h
  rw [List.mem_flatMap] at h
  obtain ⟨pd, _, h⟩ := h
  rw [List.mem_map] at h
  obtain ⟨po, _, rfl⟩ := h
  exact ⟨n, hn, rfl, rfl⟩

theorem mem_cheapestCTE {db : DB} {s e : Nat} {r : CheapestRow}
    (h : r ∈ cheapestCTE db s e) :
    listMin ((groupOffers (offersInWindow db.offers s e)
        (r.origin_id, r.dest_id)).map (fun o => o.start_time)) =
      some r.start_time ∧
    listMin ((groupOffers (offersInWindow db.offers s e)
        (r.origin_id, r.dest_id)).map (fun o => o.cost)) = some r.cost := by
  unfold cheapestCTE at h
  rw [List.mem_filterMap] at h
  obtain ⟨rt, _, heq⟩ := h
  rcases h1 : listMin ((groupOffers (offersInWindow db.offers s e) rt).map
      (fun o => o.start_time)) with _ | st <;>
    rcases h2 : listMin ((groupOffers (offersInWindow db.offers s e) rt).map
      (fun o => o.cost)) with _ | c <;>
    rw [h1, h2] at heq <;> simp only [] at heq
  · cases heq
  · cases heq
  · cases heq
  · cases heq
    exact ⟨h1, h2⟩

theorem cheapestCTE_complete {db : DB} {s e : Nat} {o : OfferRow}
    (h : o ∈ offersInWindow db.offers s e) :
    ∃ r ∈ cheapestCTE db s e,
      r.origin_id = o.origin_id ∧ r.dest_id = o.dest_id := by
  have hr := mem_routesOf h
  have hne : groupOffers (offersInWindow db.offers s e)
      (o.origin_id, o.dest_id) ≠ [] := by
    intro hnil
    exact (List.eq_nil_iff_forall_not_mem.mp hnil) o (groupOffers_self h)
  obtain ⟨st, hst⟩ := listMin_isSome
    (l := (groupOffers (offersInWindow db.offers s e)
      (o.origin_id, o.dest_id)).map (fun x => x.start_time))
    (by simpa using hne)
  obtain ⟨c, hc⟩ := listMin_isSome
    (l := (groupOffers (offersInWindow db.offers s e)
      (o.origin_id, o.dest_id)).map (fun x => x.cost))
    (by simpa using hne)
  refine ⟨⟨o.origin_id, o.dest_id, st, c⟩, ?_, rfl, rfl⟩
  unfold cheapestCTE
  rw [List.mem_filterMap]
  exact ⟨(o.origin_id, o.dest_id), hr, by rw [hst, hc]⟩

theorem mem_offersInWindow {l : List OfferRow} {s e : Nat} {o : OfferRow} :
    o ∈ offersInWindow l s e ↔
      o ∈ l ∧ s ≤ o.start_time ∧ o.start_time ≤ e := by
  unfold offersInWindow
  rw [List.mem_filter, Bool.and_eq_true, decide_eq_true_iff, decide_eq_true_iff]

theorem mem_matchingOffersP {db : DB} {sd ed : Nat} {op dp : String}
    {now : Nat} {o : OfferRow} (h : o ∈ matchingOffersP db sd ed op dp now) :
    o ∈ db.offers ∧ sd ≤ o.start_time ∧ o.start_time ≤ ed ∧
      expiresInFuture o.expires_at now = true := by
  unfold matchingOffersP at h
  rw [List.mem_flatMap] at h
  obtain ⟨a, ha, h⟩ := h
  rw [List.mem_flatMap] at h
  obtain ⟨po, _, h⟩ := h
  rw [List.mem_filterMap] at h
  obtain ⟨pd, _, heq⟩ := h
  by_cases hc : (decide (sd ≤ a.start_time) && decide (a.start_time ≤ ed) &&
      iataMatches op po.iata_code && iataMatches dp pd.iata_code &&
      expiresInFuture a.expires_at now) = true
  · rw [if_pos hc] at heq
    cases heq
    simp only [Bool.and_eq_true, decide_eq_true_iff] at hc
    exact ⟨ha, hc.1.1.1.1, hc.1.1.1.2, hc.2⟩
  · rw [if_neg hc] at heq
    cases heq

theorem mem_matchingOffers {db : DB} {req : ListQuotesRequest} {now : Nat}
    {o : OfferRow} (h : o ∈ matchingOffers db req now) :
    o ∈ db.offers ∧ req.StartDate ≤ o.start_time ∧
      o.start_time ≤ req.EndDate ∧
      expiresInFuture o.expires_at now = true :=
  mem_matchingOffersP h

theorem cacheGet_insert (c : Cache) (k : String) (v : Nat) :
    cacheGet (cacheInsert c k v) k = some v := by
  simp [cacheGet, cacheInsert, List.find?]

theorem atoiOrZero_empty : atoiOrZero "" = 0 := rfl

theorem expiresInFuture_true {e : Option Nat} {now : Nat}
    (h : expiresInFuture e now = true) : ∃ t, e = some t ∧ now < t := by
  cases e with
  | none => simp [expiresInFuture] at h
  | some t => exact ⟨t, rfl, by simpa [expiresInFuture] using h⟩

/-! ### Claim theorems -/

/-- C5: an offer whose origin or destination code does not resolve to a
place makes `SaveOffer` fail with the field-specific error naming the
field and quoting the code (the mapped `not_null_violation`), and a row
is only ever appended on success (an `.error` outcome produces no new
store state). -/
theorem saveOffer_unknown_airport (db : DB) (o : Offer) :
    (placeIDByIATA db o.OriginAirport = none →
        SaveOffer db o = .error (.unknownOrigin o.OriginAirport) ∧
        SaveError.message (.unknownOrigin o.OriginAirport) =
          "unknown origin airport \"" ++ o.OriginAirport ++ "\"") ∧
    (∀ oid, placeIDByIATA db o.OriginAirport = some oid →
        placeIDByIATA db o.DestinationAirport = none →
        SaveOffer db o = .error (.unknownDest o.DestinationAirport) ∧
        SaveError.message (.unknownDest o.DestinationAirport) =
          "unknown destination airport \"" ++ o.DestinationAirport ++ "\"") ∧
    (∀ db2, SaveOffer db o = .ok db2 →
        (∃ oid, placeIDByIATA db o.OriginAirport = some oid) ∧
        (∃ did, placeIDByIATA db o.DestinationAirport = some did)) := by
  refine ⟨?_, ?_, ?_⟩
  · intro h
    unfold SaveOffer
    rw [h]
    exact ⟨rfl, rfl⟩
  · intro oid h1 h2
    unfold SaveOffer
    rw [h1, h2]
    exact ⟨rfl, rfl⟩
  · intro db2 h
    unfold SaveOffer at h
    rcases horig : placeIDByIATA db o.OriginAirport with _ | oid
    · rw [horig] at h; cases h
    · rcases hdest : placeIDByIATA db o.DestinationAirport with _ | did
      · rw [horig, hdest] at h; cases h
      · exact ⟨⟨oid, rfl⟩, ⟨did, rfl⟩⟩

/-- C5 witness: against an empty place directory, saving an offer from
`LGB` fails with the origin-specific error quoting the code. -/
theorem saveOffer_unknown_airport_witness :
    SaveOffer ⟨[], []⟩ ⟨0, "LGB", "JFK", 1, "s", 1, 0, 1, 0⟩ =
      .error (.unknownOrigin "LGB") ∧
    SaveError.message (.unknownOrigin "LGB") =
      "unknown origin airport \"LGB\"" :=
  (saveOffer_unknown_airport ⟨[], []⟩ ⟨0, "LGB", "JFK", 1, "s", 1, 0, 1, 0⟩).1
    rfl

/-- C7: `FromHTTP` fails exactly when `start` or `end` does not parse as
a `YYYY-MM-DD` date; on success the typed filter carries the parsed
dates, the origin/destination lists verbatim, the limit (100 when the
parameter is absent or parses to zero) and the offset (0 when absent),
and nothing else. -/
theorem fromHTTP_spec (f : HTTPForm) :
    ((∃ err, FromHTTP f = .error err) ↔
      (parseDate f.startParam = none ∨ parseDate f.endParam = none)) ∧
    (∀ r, FromHTTP f = .ok r →
      parseDate f.startParam = some r.StartDate ∧
      parseDate f.endParam = some r.EndDate ∧
      r.Origins = f.originParams ∧
      r.Destinations = f.destParams ∧
      r.Limit = (if atoiOrZero f.limitParam = 0 then 100
                 else atoiOrZero f.limitParam) ∧
      r.Offset = atoiOrZero f.offsetParam ∧
      (f.limitParam = "" → r.Limit = 100) ∧
      (f.offsetParam = "" → r.Offset = 0)) := by
  rcases hs : parseDate f.startParam with _ | sd
  · constructor
    · constructor
      · intro _; exact Or.inl rfl
      · intro _
        refine ⟨"invalid 'start'", ?_⟩
        unfold FromHTTP
        rw [hs]
    · intro r h
      unfold FromHTTP at h
      rw [hs] at h
      cases h
  · rcases he : parseDate f.endParam with _ | ed
    · constructor
      · constructor
        · intro _; exact Or.inr rfl
        · intro _
          refine ⟨"invalid 'end'", ?_⟩
          unfold FromHTTP
          rw [hs, he]
      · intro r h
        unfold FromHTTP at h
        rw [hs, he] at h
        cases h
    · constructor
      · constructor
        · intro ⟨err, herr⟩
          unfold FromHTTP at herr
          rw [hs, he] at herr
          cases herr
        · intro h
          rcases h with h | h
          · cases h
          · cases h
      · intro r h
        unfold FromHTTP at h
        rw [hs, he] at h
        cases h
        refine ⟨rfl, rfl, rfl, rfl, rfl, rfl, ?_, ?_⟩
        · intro hempty
          show (if atoiOrZero f.limitParam = 0 then 100
                else atoiOrZero f.limitParam) = 100
          rw [hempty, atoiOrZero_empty]
          simp
        · intro hempty
          show atoiOrZero f.offsetParam = 0
          rw [hempty, atoiOrZero_empty]

/-- C7 witness: a request with valid dates, no limit and no offset
parses into a filter with limit 100 and offset 0. -/
theorem fromHTTP_spec_witness :
    parseDate "2024-01-01" =
      some (FromHTTP ⟨"2024-01-01", "2024-01-31", ["LGB"], [], "", ""⟩
        |>.toOption.get rfl).StartDate ∧
    (FromHTTP ⟨"2024-01-01", "2024-01-31", ["LGB"], [], "", ""⟩
        |>.toOption.get rfl).Limit = 100 ∧
    (FromHTTP ⟨"2024-01-01", "2024-01-31", ["LGB"], [], "", ""⟩
        |>.toOption.get rfl).Offset = 0 := by
  have h := (fromHTTP_spec ⟨"2024-01-01", "2024-01-31", ["LGB"], [], "", ""⟩).2
    ⟨20240101, 20240131, ["LGB"], [], 100, 0⟩ rfl
  exact ⟨h.1, h.2.2.2.2.2.2.1 rfl, h.2.2.2.2.2.2.2 rfl⟩

/-- C8: a cached IATA code is answered from the cache without querying
the store; a cache miss queries the store, a failed lookup leaves the
cache unchanged (so the next resolve queries again and a later-added
airport resolves), and a successful lookup populates the cache. -/
theorem airportIDByIATA_cache (db db2 : DB) (c : Cache) (iata : String) :
    (∀ id, cacheGet c iata = some id →
        AirportIDByIATA db c iata = ⟨.ok id, c, false⟩) ∧
    (cacheGet c iata = none → placeIDByIATA db iata = none →
        (AirportIDByIATA db c iata).cache = c ∧
        (AirportIDByIATA db c iata).result =
          .error "sql: no rows in result set" ∧
        (AirportIDByIATA db c iata).queriedDB = true ∧
        (AirportIDByIATA db2 (AirportIDByIATA db c iata).cache iata).queriedDB
          = true ∧
        (∀ pid, placeIDByIATA db2 iata = some pid →
          (AirportIDByIATA db2 (AirportIDByIATA db c iata).cache iata).result
            = .ok pid)) ∧
    (∀ pid, cacheGet c iata = none → placeIDByIATA db iata = some pid →
        (AirportIDByIATA db c iata).result = .ok pid ∧
        (AirportIDByIATA db c iata).queriedDB = true ∧
        cacheGet (AirportIDByIATA db c iata).cache iata = some pid) := by
  refine ⟨?_, ?_, ?_⟩
  · intro id h
    unfold AirportIDByIATA
    rw [h]
  · intro hmiss hnone
    have hout : AirportIDByIATA db c iata =
        ⟨.error "sql: no rows in result set", c, true⟩ := by
      unfold AirportIDByIATA
      rw [hmiss, hnone]
    rw [hout]
    refine ⟨rfl, rfl, rfl, ?_, ?_⟩
    · show (AirportIDByIATA db2 c iata).queriedDB = true
      unfold AirportIDByIATA
      rw [hmiss]
      rcases placeIDByIATA db2 iata with _ | pid <;> rfl
    · intro pid hpid
      show (AirportIDByIATA db2 c iata).result = .ok pid
      unfold AirportIDByIATA
      rw [hmiss, hpid]
  · intro pid hmiss hsome
    have hout : AirportIDByIATA db c iata =
        ⟨.ok pid, cacheInsert c iata pid, true⟩ := by
      unfold AirportIDByIATA
      rw [hmiss, hsome]
    rw [hout]
    exact ⟨rfl, rfl, cacheGet_insert c iata pid⟩

/-- C8 witness: with an empty cache, looking up a code that is missing
from the store leaves the cache empty and queries again next time; once
the airport exists in the store it resolves and is cached. -/
theorem airportIDByIATA_cache_witness :
    (AirportIDByIATA ⟨[], []⟩ [] "LGB").cache = [] ∧
    (AirportIDByIATA ⟨[⟨7, 0, 0, "Long Beach", "US", some "LGB"⟩], []⟩
        (AirportIDByIATA ⟨[], []⟩ [] "LGB").cache "LGB").result = .ok 7 ∧
    (AirportIDByIATA ⟨[⟨7, 0, 0, "Long Beach", "US", some "LGB"⟩], []⟩
        (AirportIDByIATA ⟨[], []⟩ [] "LGB").cache "LGB").queriedDB = true := by
  have h := (airportIDByIATA_cache ⟨[], []⟩
    ⟨[⟨7, 0, 0, "Long Beach", "US", some "LGB"⟩], []⟩ [] "LGB").2.1 rfl rfl
  exact ⟨h.1, h.2.2.2.2 7 rfl, h.2.2.2.1⟩

/-- C6: for nonnegative limit L and offset K, `ListQuotes` returns the
slice starting at index K of the cost-ascending full result, of length
`min(L, max(0, M-K))` where M is the full result's size. -/
theorem listQuotes_pagination (db : DB) (req : ListQuotesRequest) (now : Nat)
    (hL : 0 ≤ req.Limit) (hK : 0 ≤ req.Offset) :
    ∃ qs, ListQuotes db req now = .ok qs ∧
      qs = ((listQuotesFull db req now).drop req.Offset.toNat).take
        req.Limit.toNat ∧
      (qs.length : Int) =
        min req.Limit
          (max 0 (((listQuotesFull db req now).length : Int) - req.Offset)) ∧
      (listQuotesFull db req now).Sorted (fun a b => a.Cost ≤ b.Cost) := by
  refine ⟨((listQuotesFull db req now).drop req.Offset.toNat).take
    req.Limit.toNat, ?_, rfl, ?_, sortByKey_sorted _ _⟩
  · unfold ListQuotes
    rw [if_neg (by omega), if_neg (by omega)]
  · rw [List.length_take, List.length_drop]
    omega

/-- C6 witness: limit 1, offset 0 over the two-offer store. -/
theorem listQuotes_pagination_witness :
    ListQuotes dbTwoOffers ⟨0, 100, [], [], 1, 0⟩ 0 =
      .ok (((listQuotesFull dbTwoOffers ⟨0, 100, [], [], 1, 0⟩ 0).drop
        (0 : Int).toNat).take (1 : Int).toNat) := by
  obtain ⟨qs, h1, h2, _, _⟩ :=
    listQuotes_pagination dbTwoOffers ⟨0, 100, [], [], 1, 0⟩ 0
      (by decide) (by decide)
  rw [h1, h2]

/-- C2: `listQuotes` candidates all have a strictly-future expiration; a
route whose offers all fail that test contributes no `next_min_offer`
row (and a store of only expired offers yields no quote rows at all),
while `cheapestPerRoute` produces a row for any route with an in-window
offer, never consulting expirations. -/
theorem expiration_asymmetry :
    (∀ db req now (o : OfferRow), o ∈ matchingOffers db req now →
        ∃ t, o.expires_at = some t ∧ now < t) ∧
    (∀ db req now oid did,
        (∀ o ∈ db.offers, o.origin_id = oid → o.dest_id = did →
          expiresInFuture o.expires_at now = false) →
        ∀ n ∈ nextMinOffer (matchingOffers db req now),
          ¬(n.origin_id = oid ∧ n.dest_id = did)) ∧
    (∀ db req now,
        (∀ o ∈ db.offers, expiresInFuture o.expires_at now = false) →
        listQuoteRows db req now = []) ∧
    (∀ db s e oid did,
        (∃ o ∈ db.offers, o.origin_id = oid ∧ o.dest_id = did ∧
          s ≤ o.start_time ∧ o.start_time ≤ e) →
        ∃ r ∈ cheapestCTE db s e, r.origin_id = oid ∧ r.dest_id = did) := by
  refine ⟨?_, ?_, ?_, ?_⟩
  · intro db req now o h
    exact expiresInFuture_true (mem_matchingOffers h).2.2.2
  · intro db req now oid did hall n hn hroute
    obtain ⟨h1, _⟩ := mem_nextMinOffer hn
    have hmem := listMin_mem h1
    rw [List.mem_map] at hmem
    obtain ⟨o, ho, _⟩ := hmem
    rw [mem_groupOffers] at ho
    have hdb := mem_matchingOffers ho.1
    have hfalse := hall o hdb.1 (by rw [ho.2.1, hroute.1]) (by rw [ho.2.2, hroute.2])
    rw [hdb.2.2.2] at hfalse
    cases hfalse
  · intro db req now hall
    have hmo : matchingOffers db req now = [] := by
      rw [List.eq_nil_iff_forall_not_mem]
      intro o ho
      have hmem := mem_matchingOffers ho
      have hfalse := hall o hmem.1
      rw [hmem.2.2.2] at hfalse
      cases hfalse
    unfold listQuoteRows
    rw [hmo]
    rfl
  · intro db s e oid did h
    obtain ⟨o, ho, h1, h2, h3, h4⟩ := h
    obtain ⟨r, hr, hr1, hr2⟩ :=
      cheapestCTE_complete (mem_offersInWindow.mpr ⟨ho, h3, h4⟩)
    exact ⟨r, hr, by rw [hr1, h1], by rw [hr2, h2]⟩

/-- C2 witness: with the single offer of `dbExpired` already expired at
evaluation time 50, `listQuotes` yields no rows while `cheapestPerRoute`
still aggregates the route. -/
theorem expiration_asymmetry_witness :
    listQuoteRows dbExpired ⟨0, 100, [], [], 10, 0⟩ 50 = [] ∧
    ∃ r ∈ cheapestCTE dbExpired 0 100, r.origin_id = 1 ∧ r.dest_id = 2 := by
  constructor
  · exact expiration_asymmetry.2.2.1 dbExpired ⟨0, 100, [], [], 10, 0⟩ 50
      (by decide)
  · exact expiration_asymmetry.2.2.2 dbExpired 0 100 1 2
      ⟨⟨1, 2, 100, "s", 20, none, 1, some 5⟩, by decide, rfl, rfl,
        by decide, by decide⟩

/-- C9: an offer with an absent (zero) expiration is stored with a
`NULL` `expires_at`; such a row is never a `matching_offers` candidate
(the `expires_at > NOW()` comparison excludes `NULL`), and every quote
`listQuotes` emits is witnessed by a candidate whose expiration is a
strictly-future timestamp. -/
theorem nullExpiration_never_quoted :
    (∀ db req now (o : OfferRow), o.expires_at = none →
        o ∉ matchingOffers db req now) ∧
    (∀ db (o : Offer) db2, SaveOffer db o = .ok db2 → o.ExpiresAt = 0 →
        ∃ row, db2.offers = db.offers ++ [row] ∧ row.expires_at = none) ∧
    (∀ db req now (q : Quote), q ∈ listQuoteRows db req now →
        ∃ m ∈ matchingOffers db req now,
          m.cost = q.Cost ∧ m.start_time = q.Date ∧
          ∃ t, m.expires_at = some t ∧ now < t) := by
  refine ⟨?_, ?_, ?_⟩
  · intro db req now o hnone hmem
    have h := (mem_matchingOffers hmem).2.2.2
    rw [hnone] at h
    cases h
  · intro db o db2 h h0
    unfold SaveOffer at h
    split at h
    · cases h
    · split at h
      · cases h
      · split at h
        · cases h
        · cases h
          exact ⟨_, rfl, by simp [h0]⟩
  · intro db req now q hq
    obtain ⟨n, hn, hc, hd⟩ := mem_listQuoteRows hq
    obtain ⟨_, h2⟩ := mem_nextMinOffer hn
    have hmem := listMin_mem h2
    rw [List.mem_map] at hmem
    obtain ⟨m, hm, hms⟩ := hmem
    rw [mem_filter_route_cost] at hm
    refine ⟨m, hm.1, ?_, ?_, ?_⟩
    · rw [hm.2.2.2, hc]
    · rw [hms, hd]
    · exact expiresInFuture_true (mem_matchingOffers hm.1).2.2.2

/-- C9 witness: a `NULL`-expiration row in the window is not a
candidate, and saving an offer with zero `ExpiresAt` appends a row whose
`expires_at` is `NULL`. -/
theorem nullExpiration_never_quoted_witness :
    (⟨1, 2, 100, "s", 20, none, 1, none⟩ : OfferRow) ∉
      matchingOffers
        ⟨[⟨1, 0, 0, "Long Beach", "US", some "LGB"⟩,
          ⟨2, 0, 0, "New York", "US", some "JFK"⟩],
         [⟨1, 2, 100, "s", 20, none, 1, none⟩]⟩
        ⟨0, 100, [], [], 10, 0⟩ 0 ∧
    ∃ row, (dbTwoOffers.offers ++
        [⟨1, 2, 5, "s", 7, none, 1, none⟩] : List OfferRow) =
      dbTwoOffers.offers ++ [row] ∧ row.expires_at = none := by
  constructor
  · exact nullExpiration_never_quoted.1 _ ⟨0, 100, [], [], 10, 0⟩ 0
      ⟨1, 2, 100, "s", 20, none, 1, none⟩ rfl
  · exact nullExpiration_never_quoted.2.1 dbTwoOffers
      ⟨0, "LGB", "JFK", 5, "s", 7, 0, 1, 0⟩
      ⟨dbTwoOffers.places, dbTwoOffers.offers ++
        [⟨1, 2, 5, "s", 7, none, 1, none⟩]⟩ (by decide) rfl

/-- C1 counterexample: in `dbTwoOffers`'s single group, the minimum cost
is 100 and the minimum start date among the cost-100 offers is 20, yet
`CheapestPerRoute` reports date 10 (the group-wide `MIN(start_time)`,
taken from the cost-200 offer). -/
theorem cheapest_date_counterexample :
    CheapestPerRoute dbTwoOffers 0 100 =
      .ok [⟨100, "LGB", "US", "JFK", "US", 10⟩] ∧
    listMin ((groupOffers (offersInWindow dbTwoOffers.offers 0 100)
        (1, 2)).map (fun o => o.cost)) = some 100 ∧
    listMin (((offersInWindow dbTwoOffers.offers 0 100).filter (fun o =>
        o.origin_id == 1 && o.dest_id == 2 && o.cost == 100)).map
      (fun o => o.start_time)) = some 20 ∧
    (10 : Nat) ≠ 20 := by
  exact ⟨rfl, rfl, rfl, by decide⟩

/-- C1 amended: `listQuotes` performs the earliest-date tiebreak — each
`next_min_offer` row carries its group's minimum cost and the minimum
start date among the group's offers matching that cost, and every
emitted quote carries a `next_min_offer` row's cost and date —
while `cheapestPerRoute` pairs the group's minimum cost with the minimum
start date over all the group's in-window offers, the two minima taken
independently (so its date need not come from a minimum-cost offer). -/
theorem cheapest_date_semantics :
    (∀ mo (n : NextRow), n ∈ nextMinOffer mo →
        (∃ o ∈ mo, o.origin_id = n.origin_id ∧ o.dest_id = n.dest_id ∧
          o.cost = n.cost ∧ o.start_time = n.start_time) ∧
        (∀ o ∈ mo, o.origin_id = n.origin_id → o.dest_id = n.dest_id →
          n.cost ≤ o.cost ∧
          (o.cost = n.cost → n.start_time ≤ o.start_time))) ∧
    (∀ db req now (q : Quote), q ∈ listQuoteRows db req now →
        ∃ n ∈ nextMinOffer (matchingOffers db req now),
          q.Cost = n.cost ∧ q.Date = n.start_time) ∧
    (∀ db s e (r : CheapestRow), r ∈ cheapestCTE db s e →
        (∃ o ∈ offersInWindow db.offers s e, o.origin_id = r.origin_id ∧
          o.dest_id = r.dest_id ∧ o.cost = r.cost) ∧
        (∃ o ∈ offersInWindow db.offers s e, o.origin_id = r.origin_id ∧
          o.dest_id = r.dest_id ∧ o.start_time = r.start_time) ∧
        (∀ o ∈ offersInWindow db.offers s e, o.origin_id = r.origin_id →
          o.dest_id = r.dest_id →
          r.cost ≤ o.cost ∧ r.start_time ≤ o.start_time)) := by
  refine ⟨?_, ?_, ?_⟩
  · intro mo n hn
    obtain ⟨h1, h2⟩ := mem_nextMinOffer hn
    constructor
    · have hmem := listMin_mem h2
      rw [List.mem_map] at hmem
      obtain ⟨m, hm, hms⟩ := hmem
      rw [mem_filter_route_cost] at hm
      exact ⟨m, hm.1, hm.2.1, hm.2.2.1, hm.2.2.2, hms⟩
    · intro o ho ho1 ho2
      constructor
      · exact listMin_le h1 o.cost
          (List.mem_map.mpr ⟨o, mem_groupOffers.mpr ⟨ho, ho1, ho2⟩, rfl⟩)
      · intro hoc
        exact listMin_le h2 o.start_time
          (List.mem_map.mpr
            ⟨o, mem_filter_route_cost.mpr ⟨ho, ho1, ho2, hoc⟩, rfl⟩)
  · intro db req now q hq
    exact mem_listQuoteRows hq
  · intro db s e r hr
    obtain ⟨h1, h2⟩ := mem_cheapestCTE hr
    refine ⟨?_, ?_, ?_⟩
    · have hmem := listMin_mem h2
      rw [List.mem_map] at hmem
      obtain ⟨m, hm, hms⟩ := hmem
      rw [mem_groupOffers] at hm
      exact ⟨m, hm.1, hm.2.1, hm.2.2, hms⟩
    · have hmem := listMin_mem h1
      rw [List.mem_map] at hmem
      obtain ⟨m, hm, hms⟩ := hmem
      rw [mem_groupOffers] at hm
      exact ⟨m, hm.1, hm.2.1, hm.2.2, hms⟩
    · intro o ho ho1 ho2
      constructor
      · exact listMin_le h2 o.cost
          (List.mem_map.mpr ⟨o, mem_groupOffers.mpr ⟨ho, ho1, ho2⟩, rfl⟩)
      · exact listMin_le h1 o.start_time
          (List.mem_map.mpr ⟨o, mem_groupOffers.mpr ⟨ho, ho1, ho2⟩, rfl⟩)

/-- C1 witness: the `next_min_offer` row of the two-offer store is
(cost 100, start 20), and its tiebreak facts hold there. -/
theorem cheapest_date_semantics_witness :
    (∃ o ∈ matchingOffers dbTwoOffers ⟨0, 100, [], [], 10, 0⟩ 0,
      o.origin_id = 1 ∧ o.dest_id = 2 ∧ o.cost = 100 ∧ o.start_time = 20) ∧
    (∀ o ∈ matchingOffers dbTwoOffers ⟨0, 100, [], [], 10, 0⟩ 0,
      o.origin_id = 1 → o.dest_id = 2 →
      (100 : Int) ≤ o.cost ∧ (o.cost = 100 → (20 : Nat) ≤ o.start_time)) := by
  have h := cheapest_date_semantics.1
    (matchingOffers dbTwoOffers ⟨0, 100, [], [], 10, 0⟩ 0)
    ⟨1, 2, 100, 20⟩ (by decide)
  exact h

/-- C10: `listQuotes` sees the origin/destination lists only through
their comma-joins — requests whose parameters join equally are
indistinguishable; a list joining to the empty string (such as `[""]`)
disables the filter exactly like an absent list; and a single code
containing a comma acts as the two codes around it. -/
theorem listQuotes_filter_by_join :
    (∀ db (r1 r2 : ListQuotesRequest) now,
        r1.StartDate = r2.StartDate → r1.EndDate = r2.EndDate →
        originsParam r1 = originsParam r2 → destsParam r1 = destsParam r2 →
        r1.Limit = r2.Limit → r1.Offset = r2.Offset →
        ListQuotes db r1 now = ListQuotes db r2 now) ∧
    (∀ db sd ed dests lim off now,
        ListQuotes db ⟨sd, ed, [""], dests, lim, off⟩ now =
          ListQuotes db ⟨sd, ed, [], dests, lim, off⟩ now) ∧
    (∀ code, iataMatches (originsParam ⟨0, 0, [""], [], 0, 0⟩) code = true) ∧
    (∀ db sd ed a b dests lim off now,
        ListQuotes db ⟨sd, ed, [a ++ "," ++ b], dests, lim, off⟩ now =
          ListQuotes db ⟨sd, ed, [a, b], dests, lim, off⟩ now) := by
  have hcong : ∀ db (r1 r2 : ListQuotesRequest) now,
      r1.StartDate = r2.StartDate → r1.EndDate = r2.EndDate →
      originsParam r1 = originsParam r2 → destsParam r1 = destsParam r2 →
      r1.Limit = r2.Limit → r1.Offset = r2.Offset →
      ListQuotes db r1 now = ListQuotes db r2 now := by
    intro db r1 r2 now h1 h2 h3 h4 h5 h6
    unfold ListQuotes listQuotesFull listQuoteRows matchingOffers
    rw [h1, h2, h3, h4, h5, h6]
  refine ⟨hcong, ?_, ?_, ?_⟩
  · intro db sd ed dests lim off now
    exact hcong db _ _ now rfl rfl rfl rfl rfl rfl
  · intro code
    cases code <;> rfl
  · intro db sd ed a b dests lim off now
    exact hcong db _ _ now rfl rfl rfl rfl rfl rfl

/-- C10 witness: the single origin code "LGB,SFO" behaves exactly like
the two codes "LGB" and "SFO". -/
theorem listQuotes_filter_by_join_witness :
    ListQuotes dbTwoOffers ⟨0, 100, ["LGB,SFO"], [], 10, 0⟩ 0 =
      ListQuotes dbTwoOffers ⟨0, 100, ["LGB", "SFO"], [], 10, 0⟩ 0 :=
  listQuotes_filter_by_join.1 dbTwoOffers
    ⟨0, 100, ["LGB,SFO"], [], 10, 0⟩ ⟨0, 100, ["LGB", "SFO"], [], 10, 0⟩ 0
    rfl rfl (by decide) rfl rfl rfl

theorem loop_nil (db : DB) (lineNo saved : Nat) :
    handleAddOffersLoop db [] lineNo saved =
      (⟨200, "saved " ++ toString saved ++ " records\n"⟩, db) := rfl

theorem loop_invalid (db : DB) (rest : List RawLine) (lineNo saved : Nat) :
    handleAddOffersLoop db (.invalid :: rest) lineNo saved =
      (⟨400, "line " ++ toString lineNo ++ ": bad json\n"⟩, db) := rfl

theorem loop_validate_error (db : DB) (o : Offer) (rest : List RawLine)
    (lineNo saved : Nat) (msg : String) (hv : o.Validate = .error msg) :
    handleAddOffersLoop db (.valid o :: rest) lineNo saved =
      (⟨400, "line " ++ toString lineNo ++ ": " ++ msg ++ "\n"⟩, db) := by
  simp only [handleAddOffersLoop, hv]

theorem loop_save_error (db : DB) (o : Offer) (rest : List RawLine)
    (lineNo saved : Nat) (err : SaveError) (hv : o.Validate = .ok ())
    (hs : SaveOffer db o = .error err) :
    handleAddOffersLoop db (.valid o :: rest) lineNo saved =
      (⟨500, "Internal Server Error\n"⟩, db) := by
  simp only [handleAddOffersLoop, hv, hs]

theorem loop_save_ok (db : DB) (o : Offer) (rest : List RawLine)
    (lineNo saved : Nat) (db2 : DB) (hv : o.Validate = .ok ())
    (hs : SaveOffer db o = .ok db2) :
    handleAddOffersLoop db (.valid o :: rest) lineNo saved =
      handleAddOffersLoop db2 rest (lineNo + 1) (saved + 1) := by
  simp only [handleAddOffersLoop, hv, hs]

theorem handleAddOffersLoop_segment (pre : List Offer) :
    ∀ db rest lineNo saved db2,
      (∀ o ∈ pre, o.Validate = .ok ()) →
      saveAll db pre = .ok db2 →
      handleAddOffersLoop db (pre.map RawLine.valid ++ rest) lineNo saved =
        handleAddOffersLoop db2 rest (lineNo + pre.length)
          (saved + pre.length) := by
  induction pre with
  | nil =>
    intro db rest lineNo saved db2 _ hsave
    cases hsave
    simp
  | cons o pre ih =>
    intro db rest lineNo saved db2 hval hsave
    unfold saveAll at hsave
    rcases hs : SaveOffer db o with e | dbm
    · rw [hs] at hsave; cases hsave
    · rw [hs] at hsave
      have hvo := hval o (List.mem_cons_self o pre)
      rw [List.map_cons, List.cons_append,
        loop_save_ok db o _ lineNo saved dbm hvo hs,
        ih dbm rest (lineNo + 1) (saved + 1) db2
          (fun x hx => hval x (List.mem_cons_of_mem o hx)) hsave]
      have e1 : lineNo + 1 + pre.length = lineNo + (pre.length + 1) := by
        omega
      have e2 : saved + 1 + pre.length = saved + (pre.length + 1) := by
        omega
      rw [e1, e2]
      rfl

theorem handleAddOffersLoop_500 (lines : List RawLine) :
    ∀ db lineNo saved,
      (handleAddOffersLoop db lines lineNo saved).1.status = 500 →
      (handleAddOffersLoop db lines lineNo saved).1.body =
        "Internal Server Error\n" := by
  induction lines with
  | nil =>
    intro db lineNo saved h
    rw [loop_nil] at h
    cases h
  | cons l rest ih =>
    intro db lineNo saved h
    cases l with
    | invalid =>
      rw [loop_invalid] at h
      cases h
    | valid o =>
      rcases hv : o.Validate with e | u
      · rw [loop_validate_error db o rest lineNo saved e hv] at h
        cases h
      · cases u
        rcases hs : SaveOffer db o with err | db2
        · rw [loop_save_error db o rest lineNo saved err hv hs]
        · rw [loop_save_ok db o rest lineNo saved db2 hv hs] at h ⊢
          exact ih db2 (lineNo + 1) (saved + 1) h

/-- C3 counterexample: `HandleCheapestPerRoute` answers a storage error
with a 500 whose body is the storage error's own text — the body varies
with the error, so the failure is not a generic one free of detail. -/
theorem storage_error_leak_counterexample :
    (HandleCheapestPerRoute (.error "pq: connection refused")).status = 500 ∧
    (HandleCheapestPerRoute (.error "pq: connection refused")).body =
      "pq: connection refused\n" ∧
    (HandleCheapestPerRoute (.error "a")).body ≠
      (HandleCheapestPerRoute (.error "b")).body := by
  exact ⟨rfl, rfl, by decide⟩

/-- C3 amended: only `addOffers` surfaces storage failures as a generic
500 with the fixed body "Internal Server Error"; `cheapestPerRoute` and
`listQuotes` answer 500 with the storage error's text as the body
(each also logs it server-side). -/
theorem storage_error_surfacing :
    (∀ db lines, (HandleAddOffers db lines).1.status = 500 →
        (HandleAddOffers db lines).1.body = "Internal Server Error\n") ∧
    (∀ e, HandleCheapestPerRoute (.error e) = ⟨500, e ++ "\n"⟩) ∧
    (∀ f e r, FromHTTP f = .ok r →
        HandleListQuotes f (.error e) = ⟨500, e ++ "\n"⟩) := by
  refine ⟨?_, ?_, ?_⟩
  · intro db lines h
    exact handleAddOffersLoop_500 lines db 1 0 h
  · intro e
    rfl
  · intro f e r h
    unfold HandleListQuotes
    rw [h]

/-- C3 witness: a `listQuotes` request with valid parameters whose store
call fails with "pq: boom" answers 500 with that text in the body. -/
theorem storage_error_surfacing_witness :
    HandleListQuotes ⟨"2024-01-01", "2024-01-31", [], [], "", ""⟩
      (.error "pq: boom") = ⟨500, "pq: boom\n"⟩ :=
  storage_error_surfacing.2.2 ⟨"2024-01-01", "2024-01-31", [], [], "", ""⟩
    "pq: boom" ⟨20240101, 20240131, [], [], 100, 0⟩ rfl

/-- C4 counterexample: a batch whose first line is valid JSON and passes
validation but fails to save (unknown airport) is answered with the bare
500 body "Internal Server Error" — which contains no digit at all, so it
cites no 1-based line number, and differs from the line-citing format
the other failures use. -/
theorem addOffers_save_failure_counterexample :
    HandleAddOffers ⟨[], []⟩ [.valid ⟨0, "LGB", "JFK", 1, "s", 1, 0, 1, 0⟩] =
      (⟨500, "Internal Server Error\n"⟩, ⟨[], []⟩) ∧
    (∀ c ∈ ("Internal Server Error\n").toList, ¬ c.isDigit) ∧
    "Internal Server Error\n" ≠
      "line 1: unknown origin airport \"LGB\"\n" := by
  exact ⟨rfl, by decide, by decide⟩

/-- C4 amended: `addOffers` processes lines sequentially in order; a
fully valid, fully saveable batch answers with the count of saved
records; the first malformed line aborts with "line k: bad json" and the
first validation failure with "line k: reason" (k 1-based), leaving the
earlier lines' offers saved (no rollback); a save failure also aborts
after the earlier saves but is answered with the generic 500 body,
without the line number or reason. -/
theorem addOffers_batch_semantics :
    (∀ db (offers : List Offer) db2,
        (∀ o ∈ offers, o.Validate = .ok ()) →
        saveAll db offers = .ok db2 →
        HandleAddOffers db (offers.map RawLine.valid) =
          (⟨200, "saved " ++ toString offers.length ++ " records\n"⟩,
            db2)) ∧
    (∀ db (pre : List Offer) rest db2,
        (∀ o ∈ pre, o.Validate = .ok ()) →
        saveAll db pre = .ok db2 →
        HandleAddOffers db (pre.map RawLine.valid ++ .invalid :: rest) =
          (⟨400, "line " ++ toString (pre.length + 1) ++ ": bad json\n"⟩,
            db2)) ∧
    (∀ db (pre : List Offer) (o : Offer) rest db2 msg,
        (∀ x ∈ pre, x.Validate = .ok ()) →
        saveAll db pre = .ok db2 →
        o.Validate = .error msg →
        HandleAddOffers db (pre.map RawLine.valid ++ .valid o :: rest) =
          (⟨400, "line " ++ toString (pre.length + 1) ++ ": " ++ msg ++
            "\n"⟩, db2)) ∧
    (∀ db (pre : List Offer) (o : Offer) rest db2 err,
        (∀ x ∈ pre, x.Validate = .ok ()) →
        saveAll db pre = .ok db2 →
        o.Validate = .ok () →
        SaveOffer db2 o = .error err →
        HandleAddOffers db (pre.map RawLine.valid ++ .valid o :: rest) =
          (⟨500, "Internal Server Error\n"⟩, db2)) := by
  refine ⟨?_, ?_, ?_, ?_⟩
  · intro db offers db2 hval hsave
    unfold HandleAddOffers
    have h := handleAddOffersLoop_segment offers db [] 1 0 db2 hval hsave
    rw [List.append_nil] at h
    rw [h, loop_nil, Nat.zero_add]
  · intro db pre rest db2 hval hsave
    unfold HandleAddOffers
    rw [handleAddOffersLoop_segment pre db (.invalid :: rest) 1 0 db2
      hval hsave, loop_invalid, Nat.add_comm 1 pre.length]
  · intro db pre o rest db2 msg hval hsave hbad
    unfold HandleAddOffers
    rw [handleAddOffersLoop_segment pre db (.valid o :: rest) 1 0 db2
      hval hsave,
      loop_validate_error db2 o rest (1 + pre.length) (0 + pre.length)
        msg hbad,
      Nat.add_comm 1 pre.length]
  · intro db pre o rest db2 err hval hsave hok hfail
    unfold HandleAddOffers
    rw [handleAddOffersLoop_segment pre db (.valid o :: rest) 1 0 db2
      hval hsave,
      loop_save_error db2 o rest (1 + pre.length) (0 + pre.length)
        err hok hfail]

/-- C4 witness: a two-line batch whose second line has cost 0 answers
"line 2: missing cost" while the first line's offer stays saved. -/
theorem addOffers_batch_semantics_witness :
    HandleAddOffers dbTwoOffers
      [.valid ⟨0, "LGB", "JFK", 5, "s", 7, 0, 1, 0⟩,
       .valid ⟨0, "LGB", "JFK", 0, "s", 7, 0, 1, 0⟩] =
      (⟨400, "line 2: missing cost\n"⟩,
        ⟨dbTwoOffers.places, dbTwoOffers.offers ++
          [⟨1, 2, 5, "s", 7, none, 1, none⟩]⟩) := by
  have h := addOffers_batch_semantics.2.2.1 dbTwoOffers
    [⟨0, "LGB", "JFK", 5, "s", 7, 0, 1, 0⟩]
    ⟨0, "LGB", "JFK", 0, "s", 7, 0, 1, 0⟩ []
    ⟨dbTwoOffers.places, dbTwoOffers.offers ++
      [⟨1, 2, 5, "s", 7, none, 1, none⟩]⟩
    "missing cost" (by decide) (by decide) rfl
  exact h

end Transitdb
